import Mathlib

/-!
Shallow embedding of the pytorch-service model manager
(src/pytorch-service/model_manager.py) and proofs about its cache,
formatting and inference bookkeeping behaviour.

Modelling conventions:
* The Python dict `self.loaded_models` is an insertion-ordered
  association list from cache-key strings to entry records; keys are
  unique in every reachable state.
* `datetime.utcnow()` is a strictly increasing logical clock (a Nat
  stored in the manager state and bumped whenever the code reads it).
* The external model/tokenizer loaders (HuggingFace downloads) are an
  oracle supplied per call: `some (model, tokenizer)` when the load
  would succeed, `none` when it would raise.
* `psutil` memory readings are an oracle Nat supplied per call.
* Model handles and token ids are opaque Nats; tokenizers carry their
  pad/eos ids plus encode/decode oracles.
-/

namespace PytorchService

/-- Decidable equality of Except results, so concrete call outcomes
can be checked by decide. -/
instance {ε α : Type} [DecidableEq ε] [DecidableEq α] : DecidableEq (Except ε α) := fun x y =>
  match x, y with
  | Except.ok a, Except.ok b =>
    if h : a = b then Decidable.isTrue (by rw [h])
    else Decidable.isFalse (fun hh => h (Except.ok.inj hh))
  | Except.error a, Except.error b =>
    if h : a = b then Decidable.isTrue (by rw [h])
    else Decidable.isFalse (fun hh => h (Except.error.inj hh))
  | Except.ok _, Except.error _ => Decidable.isFalse (fun hh => Except.noConfusion hh)
  | Except.error _, Except.ok _ => Decidable.isFalse (fun hh => Except.noConfusion hh)

/-- One value of the `loaded_models` dict: the record built in
`load_model` with model, tokenizer, model_type, loaded_at, last_used
and memory_usage fields. -/
structure Entry where
  model : Nat
  tokenizer : Option Nat
  model_type : String
  loaded_at : Nat
  last_used : Nat
  memory_usage : Nat
  deriving DecidableEq, Repr

/-- The mutable state of `ModelManager`: the `loaded_models` dict (an
insertion-ordered association list), the configured `max_models`, and
the logical clock standing for `datetime.utcnow()`. -/
structure ModelManager where
  loaded_models : List (String × Entry)
  max_models : Nat
  clock : Nat
  deriving DecidableEq, Repr

/-- `cache_key = f"{model_id}:{model_type}"` (model_manager.py line 53). -/
def cache_key (model_id model_type : String) : String :=
  model_id ++ ":" ++ model_type

/-- Dict lookup: `self.loaded_models[cache_key]` guarded by
`cache_key in self.loaded_models`. -/
def lookupEntry : List (String × Entry) → String → Option Entry
  | [], _ => none
  | p :: rest, key => if p.1 = key then some p.2 else lookupEntry rest key

/-- In-place mutation of the hit entry:
`self.loaded_models[cache_key]["last_used"] = datetime.utcnow()`
(line 58). The binding keeps its position in the dict order. -/
def updateLastUsed : List (String × Entry) → String → Nat → List (String × Entry)
  | [], _, _ => []
  | p :: rest, key, now =>
    if p.1 = key then (p.1, { p.2 with last_used := now }) :: rest
    else p :: updateLastUsed rest key now

/-- `del self.loaded_models[cache_key]` (line 291): removes the binding
of the given key. -/
def removeKey : List (String × Entry) → String → List (String × Entry)
  | [], _ => []
  | p :: rest, key => if p.1 = key then removeKey rest key else p :: removeKey rest key

/-- `min(self.loaded_models.keys(), key=lambda k: ...["last_used"])`
(lines 274-277): the first binding, in dict order, whose last_used is
minimal (Python min keeps the earlier element on ties). -/
def minEntryGo : List (String × Entry) → String × Entry → String × Entry
  | [], best => best
  | p :: rest, best =>
    minEntryGo rest (if p.2.last_used < best.2.last_used then p else best)

/-- The victim chosen by `_evict_oldest_model`, or none on an empty
dict (in which case the Python code returns early). -/
def minEntryByLastUsed : List (String × Entry) → Option (String × Entry)
  | [] => none
  | p :: rest => some (minEntryGo rest p)

/-- `unload_model` (lines 282-296): if the key is resident, drop its
binding (the device move and gc have no observable effect on the
modelled state). -/
def unload_model (mm : ModelManager) (key : String) : ModelManager :=
  if (lookupEntry mm.loaded_models key).isSome then
    { mm with loaded_models := removeKey mm.loaded_models key }
  else mm

/-- `_evict_oldest_model` (lines 269-280): return unchanged on an empty
dict, otherwise unload the binding with the oldest last_used. -/
def evict_oldest_model (mm : ModelManager) : ModelManager :=
  match minEntryByLastUsed mm.loaded_models with
  | none => mm
  | some v => unload_model mm v.1

/-- Errors `load_model` can raise: the `ValueError` for an unsupported
model type (line 76; the capability error of the spec) and a loader
exception propagated by the bare `raise` (line 93). -/
inductive LoadError where
  | unsupportedType
  | loadError
  deriving DecidableEq, Repr

/-- `load_model` (lines 51-93). `outcome` is the oracle for the
capability-specific loader helpers (`some (model, tokenizer)` on
success, `none` when they raise), `mem` the oracle for
`_get_model_memory_usage`. Order of effects follows the source: hit
check, capacity check plus eviction, then the model-type dispatch in
which an unsupported type raises before any load is attempted. -/
def load_model (outcome : Option (Nat × Option Nat)) (mem : Nat)
    (mm : ModelManager) (model_id model_type : String) :
    ModelManager × Except LoadError (Nat × Option Nat) :=
  let key := cache_key model_id model_type
  match lookupEntry mm.loaded_models key with
  | some e =>
    ({ mm with
        loaded_models := updateLastUsed mm.loaded_models key mm.clock,
        clock := mm.clock + 1 },
      Except.ok (e.model, e.tokenizer))
  | none =>
    let mm1 :=
      if mm.max_models ≤ mm.loaded_models.length then evict_oldest_model mm else mm
    if model_type = "embedding" ∨ model_type = "text-generation" then
      match outcome with
      | some mt =>
        ({ mm1 with
            loaded_models := mm1.loaded_models ++
              [(key, ⟨mt.1, mt.2, model_type, mm1.clock, mm1.clock, mem⟩)],
            clock := mm1.clock + 1 },
          Except.ok mt)
      | none => (mm1, Except.error LoadError.loadError)
    else (mm1, Except.error LoadError.unsupportedType)

/-- `cleanup` (lines 324-328): unload every key of a snapshot of the
dict's key list. -/
def cleanup (mm : ModelManager) : ModelManager :=
  (mm.loaded_models.map Prod.fst).foldl unload_model mm

/-- Splitting a character list at its first colon:
`cache_key.split(":", 1)` (line 302); none when no colon occurs, in
which case the Python tuple unpacking would raise. -/
def splitFirstColonList : List Char → Option (List Char × List Char)
  | [] => none
  | c :: rest =>
    if c = ':' then some ([], rest)
    else
      match splitFirstColonList rest with
      | some ab => some (c :: ab.1, ab.2)
      | none => none

/-- One element of the list built by `get_model_info` (lines 298-310). -/
structure ModelInfo where
  model_id : String
  model_type : String
  loaded : Bool
  memory_usage : Nat
  last_used : Nat
  deriving DecidableEq, Repr

/-- The body of the `get_model_info` loop for one dict binding. -/
def infoOfEntry (p : String × Entry) : Option ModelInfo :=
  match splitFirstColonList p.1.toList with
  | none => none
  | some ab =>
    some ⟨String.mk ab.1, String.mk ab.2, true, p.2.memory_usage, p.2.last_used⟩

/-- The `get_model_info` loop over the dict bindings; none when a key
without a colon makes the tuple unpacking raise (unreachable from
`load_model`, whose keys always contain a colon). -/
def get_model_info_list : List (String × Entry) → Option (List ModelInfo)
  | [] => some []
  | p :: rest =>
    match infoOfEntry p, get_model_info_list rest with
    | some i, some is => some (i :: is)
    | _, _ => none

/-- `get_model_info` (lines 298-310). -/
def get_model_info (mm : ModelManager) : Option (List ModelInfo) :=
  get_model_info_list mm.loaded_models

/-- A fresh manager: empty dict, configured max_models, clock zero. -/
def initialManager (maxModels : Nat) : ModelManager :=
  ⟨[], maxModels, 0⟩

/-- One external `load_model` call of a trace: its arguments plus the
oracles for the loader outcome and the memory reading. -/
structure Call where
  model_id : String
  model_type : String
  outcome : Option (Nat × Option Nat)
  mem : Nat
  deriving DecidableEq, Repr

/-- The state after one call of a trace. -/
def step (mm : ModelManager) (c : Call) : ModelManager :=
  (load_model c.outcome c.mem mm c.model_id c.model_type).1

/-- The state after a whole trace of `load_model` calls. -/
def runCalls (mm : ModelManager) (cs : List Call) : ModelManager :=
  cs.foldl step mm

/-- The cache keys currently resident, in dict order. -/
def residentKeys (mm : ModelManager) : List String :=
  mm.loaded_models.map Prod.fst

/-- One conversation message, as the dicts consumed by
`_format_messages` (role and content strings). -/
structure Message where
  role : String
  content : String
  deriving DecidableEq, Repr

/-- The line `_format_messages` appends for one message: a labelled
line for the three known roles, nothing for any other role. -/
def format_message_line (m : Message) : Option String :=
  if m.role = "system" then some ("System: " ++ m.content)
  else if m.role = "user" then some ("User: " ++ m.content)
  else if m.role = "assistant" then some ("Assistant: " ++ m.content)
  else none

/-- `_format_messages` (lines 253-267): the kept lines followed by the
trailing cue, joined with newlines. -/
def format_messages (messages : List Message) : String :=
  String.intercalate "\n" (messages.filterMap format_message_line ++ ["Assistant:"])

/-- A HuggingFace tokenizer as `generate_text` observes it: pad/eos
token ids plus encode and decode oracles (decode models
`tokenizer.decode` with skip_special_tokens=True). -/
structure Tokenizer where
  pad_token_id : Option Nat
  eos_token_id : Nat
  encode : String → List Nat
  decode : List Nat → String

/-- The tokenizer preparation of `_load_generation_model`
(lines 122-124): alias the pad token to the eos token when unset. -/
def alias_pad_token (tk : Tokenizer) : Tokenizer :=
  if tk.pad_token_id = none then { tk with pad_token_id := some tk.eos_token_id }
  else tk

/-- A loaded generation model: an oracle mapping the arguments of
`model.generate` (input ids, max_new_tokens, temperature, top_p,
pad_token_id) to the full output token sequence. -/
structure PTModel where
  generate : List Nat → Nat → Rat → Rat → Nat → List Nat

/-- The argument record `generate_text` passes to `model.generate`
(lines 176-183). -/
structure GenerateCall where
  input_ids : List Nat
  max_new_tokens : Nat
  temperature : Rat
  top_p : Rat
  do_sample : Bool
  pad_token_id : Nat

/-- The dict returned by `generate_text` (lines 193-199). -/
structure GenResponse where
  content : String
  finish_reason : String
  input_tokens : Nat
  output_tokens : Nat
  total_tokens : Nat

/-- `generate_text` (lines 150-199): format the prompt, tokenize with
truncation at 2048, call `model.generate` (whose argument record is
returned alongside the response so the external call is observable),
decode the suffix past the input length, and assemble the token
accounting. -/
def generate_text (model : PTModel) (tokenizer : Tokenizer) (messages : List Message)
    (max_tokens : Nat) (temperature top_p : Rat) : GenerateCall × GenResponse :=
  let prompt := format_messages messages
  let input_ids := (tokenizer.encode prompt).take 2048
  let input_tokens := input_ids.length
  let call : GenerateCall :=
    ⟨input_ids, max_tokens, temperature, top_p, true, tokenizer.eos_token_id⟩
  let outputs := model.generate call.input_ids call.max_new_tokens call.temperature
    call.top_p call.pad_token_id
  let response := tokenizer.decode (outputs.drop input_tokens)
  let output_tokens := outputs.length - input_tokens
  (call,
    ⟨response.trim, "stop", input_tokens, output_tokens, input_tokens + output_tokens⟩)

/-- The line `_format_messages` is specified to produce for a message
carrying one of the three known roles (used to state that no such
message is dropped). -/
def role_line (m : Message) : String :=
  if m.role = "system" then "System: " ++ m.content
  else if m.role = "user" then "User: " ++ m.content
  else "Assistant: " ++ m.content

/-- A successful embedding load of modelA. -/
def cA : Call := ⟨"modelA", "embedding", some (10, none), 0⟩

/-- A successful embedding load of modelB. -/
def cB : Call := ⟨"modelB", "embedding", some (11, none), 0⟩

/-- A successful embedding load of modelC. -/
def cC : Call := ⟨"modelC", "embedding", some (12, none), 0⟩

/-- A repeat request for modelA; the loader oracle is none because a
hit never consults it. -/
def cHitA : Call := ⟨"modelA", "embedding", none, 0⟩

/-- A tokenizer whose pad token id (1) differs from its eos token id
(2). -/
def tkDistinct : Tokenizer := ⟨some 1, 2, fun _ => [], fun _ => ""⟩

/-- A generation model whose output ends with the stop-padding id it
was called with, making that argument observable. -/
def mEcho : PTModel := ⟨fun ids _ _ _ pad => ids ++ [pad]⟩

/-- A manager with max_models = 2 filled to capacity by loading modelA
then modelB. -/
def mmFull2 : ModelManager := runCalls (initialManager 2) [cA, cB]

/-- A manager with max_models = 1 filled to capacity by loading modelA. -/
def mmOne1 : ModelManager := runCalls (initialManager 1) [cA]

/-- A manager with max_models = 2 holding only modelA (below capacity). -/
def mmOne2 : ModelManager := runCalls (initialManager 2) [cA]

/-- A resident generation entry for a model identifier without a colon. -/
def e10 : Entry := ⟨1, some 2, "text-generation", 0, 9, 7⟩

/-- A manager holding only that entry. -/
def mm10a : ModelManager := ⟨[(cache_key "gpt2" "text-generation", e10)], 3, 1⟩

/-- A resident embedding entry for a model identifier containing a colon. -/
def e10b : Entry := ⟨1, none, "embedding", 0, 4, 5⟩

/-- A manager holding only that entry. -/
def mm10b : ModelManager := ⟨[(cache_key "org:name" "embedding", e10b)], 3, 1⟩

theorem mem_of_lookupEntry_eq_some {l : List (String × Entry)} {k : String} {e : Entry}
    (h : lookupEntry l k = some e) : (k, e) ∈ l := by
  induction l with
  | nil => simp [lookupEntry] at h
  | cons p rest ih =>
    rcases p with ⟨a, b⟩
    by_cases hak : a = k
    · subst hak
      simp [lookupEntry] at h
      subst h
      exact List.mem_cons_self _ _
    · simp [lookupEntry, hak] at h
      exact List.mem_cons_of_mem _ (ih h)

theorem lookupEntry_isSome_of_mem {l : List (String × Entry)} {p : String × Entry}
    (h : p ∈ l) : (lookupEntry l p.1).isSome := by
  induction l with
  | nil => simp at h
  | cons q rest ih =>
    rcases List.mem_cons.mp h with h | h
    · subst h; simp [lookupEntry]
    · by_cases hq : q.1 = p.1
      · simp [lookupEntry, hq]
      · simp [lookupEntry, hq]
        exact ih h

theorem lookupEntry_eq_none_of_not_mem {l : List (String × Entry)} {k : String}
    (h : k ∉ l.map Prod.fst) : lookupEntry l k = none := by
  induction l with
  | nil => rfl
  | cons p rest ih =>
    rw [List.map_cons] at h
    have h1 : ¬ k = p.1 := fun hh => h (by rw [hh]; exact List.mem_cons_self _ _)
    have h2 : k ∉ rest.map Prod.fst := fun hh => h (List.mem_cons_of_mem _ hh)
    by_cases hp : p.1 = k
    · exact absurd hp.symm h1
    · simp [lookupEntry, hp]
      exact ih h2

theorem ne_of_mem_of_lookupEntry_none {l : List (String × Entry)} {p : String × Entry}
    {k : String} (hm : p ∈ l) (h : lookupEntry l k = none) : p.1 ≠ k := by
  intro hk
  have := lookupEntry_isSome_of_mem hm
  rw [hk, h] at this
  simp at this

theorem length_updateLastUsed (l : List (String × Entry)) (k : String) (n : Nat) :
    (updateLastUsed l k n).length = l.length := by
  induction l with
  | nil => rfl
  | cons p rest ih => by_cases hp : p.1 = k <;> simp [updateLastUsed, hp, ih]

theorem map_fst_updateLastUsed (l : List (String × Entry)) (k : String) (n : Nat) :
    (updateLastUsed l k n).map Prod.fst = l.map Prod.fst := by
  induction l with
  | nil => rfl
  | cons p rest ih => by_cases hp : p.1 = k <;> simp [updateLastUsed, hp, ih]

theorem lookupEntry_updateLastUsed_self (l : List (String × Entry)) (k : String) (n : Nat) :
    lookupEntry (updateLastUsed l k n) k =
      (lookupEntry l k).map (fun e => { e with last_used := n }) := by
  induction l with
  | nil => rfl
  | cons p rest ih =>
    by_cases hp : p.1 = k
    · simp [updateLastUsed, lookupEntry, hp]
    · simp [updateLastUsed, lookupEntry, hp, ih]

theorem mem_updateLastUsed_of_ne {l : List (String × Entry)} {p : String × Entry}
    {k : String} {n : Nat} (hm : p ∈ l) (hne : p.1 ≠ k) : p ∈ updateLastUsed l k n := by
  induction l with
  | nil => simp at hm
  | cons q rest ih =>
    rcases List.mem_cons.mp hm with h | h
    · subst h
      simp [updateLastUsed, hne]
    · by_cases hq : q.1 = k
      · simp [updateLastUsed, hq]
        right; exact h
      · simp [updateLastUsed, hq]
        right; exact ih h

theorem removeKey_eq_of_lookupEntry_none {l : List (String × Entry)} {k : String}
    (h : lookupEntry l k = none) : removeKey l k = l := by
  induction l with
  | nil => rfl
  | cons p rest ih =>
    by_cases hp : p.1 = k
    · simp [lookupEntry, hp] at h
    · simp [lookupEntry, hp] at h
      simp [removeKey, hp, ih h]

theorem length_removeKey_le (l : List (String × Entry)) (k : String) :
    (removeKey l k).length ≤ l.length := by
  induction l with
  | nil => exact Nat.le_refl _
  | cons p rest ih =>
    by_cases hp : p.1 = k
    · simp [removeKey, hp]
      exact Nat.le_trans ih (Nat.le_succ _)
    · simp [removeKey, hp]
      exact ih

theorem length_removeKey_lt {l : List (String × Entry)} {k : String}
    (h : (lookupEntry l k).isSome) : (removeKey l k).length < l.length := by
  induction l with
  | nil => simp [lookupEntry] at h
  | cons p rest ih =>
    by_cases hp : p.1 = k
    · simp [removeKey, hp]
      exact Nat.lt_succ_of_le (length_removeKey_le rest k)
    · simp [lookupEntry, hp] at h
      simp [removeKey, hp]
      exact ih h

theorem lookupEntry_removeKey_self (l : List (String × Entry)) (k : String) :
    lookupEntry (removeKey l k) k = none := by
  induction l with
  | nil => rfl
  | cons p rest ih =>
    by_cases hp : p.1 = k
    · simp [removeKey, hp, ih]
    · simp [removeKey, hp, lookupEntry, ih]

theorem lookupEntry_removeKey_of_none {l : List (String × Entry)} {k k2 : String}
    (h : lookupEntry l k = none) : lookupEntry (removeKey l k2) k = none := by
  induction l with
  | nil => rfl
  | cons p rest ih =>
    by_cases hpk : p.1 = k
    · simp [lookupEntry, hpk] at h
    · simp [lookupEntry, hpk] at h
      by_cases hp2 : p.1 = k2
      · simp [removeKey, hp2]
        exact ih h
      · simp [removeKey, hp2, lookupEntry, hpk]
        exact ih h

theorem mem_of_mem_removeKey {l : List (String × Entry)} {k : String}
    {p : String × Entry} (h : p ∈ removeKey l k) : p ∈ l ∧ p.1 ≠ k := by
  induction l with
  | nil => simp [removeKey] at h
  | cons q rest ih =>
    by_cases hq : q.1 = k
    · simp [removeKey, hq] at h
      rcases ih h with ⟨h1, h2⟩
      exact ⟨List.mem_cons_of_mem _ h1, h2⟩
    · simp [removeKey, hq] at h
      rcases h with h | h
      · subst h
        exact ⟨List.mem_cons_self _ _, hq⟩
      · rcases ih h with ⟨h1, h2⟩
        exact ⟨List.mem_cons_of_mem _ h1, h2⟩

theorem length_removeKey_of_nodup {l : List (String × Entry)} {k : String}
    (hnd : (l.map Prod.fst).Nodup) (h : (lookupEntry l k).isSome) :
    (removeKey l k).length + 1 = l.length := by
  induction l with
  | nil => simp [lookupEntry] at h
  | cons p rest ih =>
    rw [List.map_cons, List.nodup_cons] at hnd
    by_cases hp : p.1 = k
    · subst hp
      have hn : lookupEntry rest p.1 = none := lookupEntry_eq_none_of_not_mem hnd.1
      simp [removeKey, removeKey_eq_of_lookupEntry_none hn]
    · simp [lookupEntry, hp] at h
      have := ih hnd.2 h
      simp [removeKey, hp]
      omega

theorem minEntryGo_mem (l : List (String × Entry)) (best : String × Entry) :
    minEntryGo l best ∈ best :: l := by
  induction l generalizing best with
  | nil => simp [minEntryGo]
  | cons p rest ih =>
    rw [minEntryGo]
    rcases List.mem_cons.mp (ih (if p.2.last_used < best.2.last_used then p else best)) with h | h
    · rw [h]
      split
      · exact List.mem_cons_of_mem _ (List.mem_cons_self _ _)
      · exact List.mem_cons_self _ _
    · exact List.mem_cons_of_mem _ (List.mem_cons_of_mem _ h)

theorem minEntryGo_min (l : List (String × Entry)) (best : String × Entry) :
    (minEntryGo l best).2.last_used ≤ best.2.last_used ∧
      ∀ p ∈ l, (minEntryGo l best).2.last_used ≤ p.2.last_used := by
  induction l generalizing best with
  | nil => exact ⟨Nat.le_refl _, by simp⟩
  | cons q rest ih =>
    rw [minEntryGo]
    obtain ⟨h1, h2⟩ := ih (if q.2.last_used < best.2.last_used then q else best)
    constructor
    · refine Nat.le_trans h1 ?_
      split
      · next hlt => exact Nat.le_of_lt hlt
      · exact Nat.le_refl _
    · intro p hp
      rcases List.mem_cons.mp hp with h | h
      · subst h
        refine Nat.le_trans h1 ?_
        split
        · exact Nat.le_refl _
        · next hlt => exact Nat.le_of_not_lt hlt
      · exact h2 p h

theorem minEntryByLastUsed_mem {l : List (String × Entry)} {v : String × Entry}
    (h : minEntryByLastUsed l = some v) : v ∈ l := by
  cases l with
  | nil => simp [minEntryByLastUsed] at h
  | cons p rest =>
    simp [minEntryByLastUsed] at h
    rw [← h]
    exact minEntryGo_mem rest p

theorem minEntryByLastUsed_min {l : List (String × Entry)} {v : String × Entry}
    (h : minEntryByLastUsed l = some v) : ∀ p ∈ l, v.2.last_used ≤ p.2.last_used := by
  cases l with
  | nil => simp [minEntryByLastUsed] at h
  | cons q rest =>
    simp [minEntryByLastUsed] at h
    obtain ⟨h1, h2⟩ := minEntryGo_min rest q
    intro p hp
    rcases List.mem_cons.mp hp with hh | hh
    · subst hh
      rw [← h]
      exact h1
    · rw [← h]
      exact h2 p hh

theorem minEntryByLastUsed_eq_none {l : List (String × Entry)} :
    minEntryByLastUsed l = none ↔ l = [] := by
  cases l <;> simp [minEntryByLastUsed]

theorem unload_model_max_models (mm : ModelManager) (k : String) :
    (unload_model mm k).max_models = mm.max_models := by
  unfold unload_model
  split <;> rfl

theorem unload_model_clock (mm : ModelManager) (k : String) :
    (unload_model mm k).clock = mm.clock := by
  unfold unload_model
  split <;> rfl

theorem evict_oldest_model_max_models (mm : ModelManager) :
    (evict_oldest_model mm).max_models = mm.max_models := by
  unfold evict_oldest_model
  cases h : minEntryByLastUsed mm.loaded_models
  · rfl
  · exact unload_model_max_models _ _

theorem evict_oldest_model_clock (mm : ModelManager) :
    (evict_oldest_model mm).clock = mm.clock := by
  unfold evict_oldest_model
  cases h : minEntryByLastUsed mm.loaded_models
  · rfl
  · exact unload_model_clock _ _

theorem evict_oldest_model_loaded {mm : ModelManager} {v : String × Entry}
    (h : minEntryByLastUsed mm.loaded_models = some v) :
    (evict_oldest_model mm).loaded_models = removeKey mm.loaded_models v.1 := by
  have hv : (lookupEntry mm.loaded_models v.1).isSome :=
    lookupEntry_isSome_of_mem (minEntryByLastUsed_mem h)
  unfold evict_oldest_model
  rw [h]
  dsimp only
  unfold unload_model
  rw [if_pos hv]

theorem length_evict_oldest_model_le (mm : ModelManager) :
    (evict_oldest_model mm).loaded_models.length ≤ mm.loaded_models.length := by
  cases h : minEntryByLastUsed mm.loaded_models with
  | none =>
    unfold evict_oldest_model
    rw [h]
  | some v =>
    rw [evict_oldest_model_loaded h]
    exact length_removeKey_le _ _

theorem length_evict_oldest_model_lt (mm : ModelManager) (h : mm.loaded_models ≠ []) :
    (evict_oldest_model mm).loaded_models.length < mm.loaded_models.length := by
  cases hm : minEntryByLastUsed mm.loaded_models with
  | none => exact absurd (minEntryByLastUsed_eq_none.mp hm) h
  | some v =>
    rw [evict_oldest_model_loaded hm]
    exact length_removeKey_lt (lookupEntry_isSome_of_mem (minEntryByLastUsed_mem hm))

theorem lookupEntry_evict_oldest_model_of_none {mm : ModelManager} {k : String}
    (h : lookupEntry mm.loaded_models k = none) :
    lookupEntry (evict_oldest_model mm).loaded_models k = none := by
  cases hm : minEntryByLastUsed mm.loaded_models with
  | none =>
    unfold evict_oldest_model
    rw [hm]
    exact h
  | some v =>
    rw [evict_oldest_model_loaded hm]
    exact lookupEntry_removeKey_of_none h

theorem load_model_hit (o : Option (Nat × Option Nat)) (mem : Nat) (mm : ModelManager)
    (model_id model_type : String) (e : Entry)
    (h : lookupEntry mm.loaded_models (cache_key model_id model_type) = some e) :
    load_model o mem mm model_id model_type =
      ({ mm with
          loaded_models := updateLastUsed mm.loaded_models (cache_key model_id model_type) mm.clock,
          clock := mm.clock + 1 },
        Except.ok (e.model, e.tokenizer)) := by
  unfold load_model
  dsimp only
  rw [h]

theorem load_model_miss_insert (p : Nat × Option Nat) (mem : Nat) (mm : ModelManager)
    (model_id model_type : String)
    (hmiss : lookupEntry mm.loaded_models (cache_key model_id model_type) = none)
    (hty : model_type = "embedding" ∨ model_type = "text-generation") :
    load_model (some p) mem mm model_id model_type =
      (let mm1 := if mm.max_models ≤ mm.loaded_models.length then evict_oldest_model mm else mm
       ({ mm1 with
           loaded_models := mm1.loaded_models ++
             [(cache_key model_id model_type, ⟨p.1, p.2, model_type, mm1.clock, mm1.clock, mem⟩)],
           clock := mm1.clock + 1 },
         Except.ok p)) := by
  unfold load_model
  dsimp only
  rw [hmiss]
  dsimp only
  rw [if_pos hty]

theorem load_model_miss_fail (mem : Nat) (mm : ModelManager)
    (model_id model_type : String)
    (hmiss : lookupEntry mm.loaded_models (cache_key model_id model_type) = none)
    (hty : model_type = "embedding" ∨ model_type = "text-generation") :
    load_model none mem mm model_id model_type =
      ((if mm.max_models ≤ mm.loaded_models.length then evict_oldest_model mm else mm),
        Except.error LoadError.loadError) := by
  unfold load_model
  dsimp only
  rw [hmiss]
  dsimp only
  rw [if_pos hty]

theorem load_model_miss_badtype (o : Option (Nat × Option Nat)) (mem : Nat) (mm : ModelManager)
    (model_id model_type : String)
    (hmiss : lookupEntry mm.loaded_models (cache_key model_id model_type) = none)
    (hty : ¬ (model_type = "embedding" ∨ model_type = "text-generation")) :
    load_model o mem mm model_id model_type =
      ((if mm.max_models ≤ mm.loaded_models.length then evict_oldest_model mm else mm),
        Except.error LoadError.unsupportedType) := by
  unfold load_model
  dsimp only
  rw [hmiss]
  dsimp only
  rw [if_neg hty]

theorem load_model_max_models (o : Option (Nat × Option Nat)) (mem : Nat) (mm : ModelManager)
    (model_id model_type : String) :
    (load_model o mem mm model_id model_type).1.max_models = mm.max_models := by
  cases h : lookupEntry mm.loaded_models (cache_key model_id model_type) with
  | some e => rw [load_model_hit o mem mm model_id model_type e h]
  | none =>
    by_cases hty : model_type = "embedding" ∨ model_type = "text-generation"
    · cases o with
      | some p =>
        rw [load_model_miss_insert p mem mm model_id model_type h hty]
        dsimp only
        split
        · exact evict_oldest_model_max_models mm
        · rfl
      | none =>
        rw [load_model_miss_fail mem mm model_id model_type h hty]
        dsimp only
        split
        · exact evict_oldest_model_max_models mm
        · rfl
    · rw [load_model_miss_badtype o mem mm model_id model_type h hty]
      dsimp only
      split
      · exact evict_oldest_model_max_models mm
      · rfl

theorem length_load_model_le (o : Option (Nat × Option Nat)) (mem : Nat) (mm : ModelManager)
    (model_id model_type : String) (hN : 1 ≤ mm.max_models)
    (h : mm.loaded_models.length ≤ mm.max_models) :
    (load_model o mem mm model_id model_type).1.loaded_models.length ≤ mm.max_models := by
  have hb : (if mm.max_models ≤ mm.loaded_models.length then evict_oldest_model mm
      else mm).loaded_models.length ≤ mm.max_models := by
    split
    · exact Nat.le_trans (length_evict_oldest_model_le mm) h
    · exact h
  cases hl : lookupEntry mm.loaded_models (cache_key model_id model_type) with
  | some e =>
    rw [load_model_hit o mem mm model_id model_type e hl]
    dsimp only
    rw [length_updateLastUsed]
    exact h
  | none =>
    by_cases hty : model_type = "embedding" ∨ model_type = "text-generation"
    · cases o with
      | some p =>
        rw [load_model_miss_insert p mem mm model_id model_type hl hty]
        dsimp only
        rw [List.length_append]
        have hb2 : (if mm.max_models ≤ mm.loaded_models.length then evict_oldest_model mm
            else mm).loaded_models.length + 1 ≤ mm.max_models := by
          by_cases hcap : mm.max_models ≤ mm.loaded_models.length
          · rw [if_pos hcap]
            have hne : mm.loaded_models ≠ [] := by
              intro hnil
              rw [hnil] at hcap
              simp at hcap
              omega
            have := length_evict_oldest_model_lt mm hne
            omega
          · rw [if_neg hcap]
            omega
        simpa using hb2
      | none =>
        rw [load_model_miss_fail mem mm model_id model_type hl hty]
        exact hb
    · rw [load_model_miss_badtype o mem mm model_id model_type hl hty]
      exact hb

theorem step_max_models (mm : ModelManager) (c : Call) :
    (step mm c).max_models = mm.max_models :=
  load_model_max_models c.outcome c.mem mm c.model_id c.model_type

theorem runCalls_length_le (cs : List Call) (mm : ModelManager)
    (hN : 1 ≤ mm.max_models) (h : mm.loaded_models.length ≤ mm.max_models) :
    (runCalls mm cs).loaded_models.length ≤ mm.max_models := by
  induction cs generalizing mm with
  | nil => exact h
  | cons c rest ih =>
    have hrun : runCalls mm (c :: rest) = runCalls (step mm c) rest := rfl
    rw [hrun]
    have hmax := step_max_models mm c
    have h1 : 1 ≤ (step mm c).max_models := by rw [hmax]; exact hN
    have h2 : (step mm c).loaded_models.length ≤ (step mm c).max_models := by
      rw [hmax]
      exact length_load_model_le c.outcome c.mem mm c.model_id c.model_type hN h
    have := ih (step mm c) h1 h2
    rw [hmax] at this
    exact this

theorem foldl_unload_empty (ks : List String) (mm : ModelManager)
    (h : ∀ p ∈ mm.loaded_models, p.1 ∈ ks) :
    (ks.foldl unload_model mm).loaded_models = [] := by
  induction ks generalizing mm with
  | nil =>
    cases hl : mm.loaded_models with
    | nil => show mm.loaded_models = []; exact hl
    | cons p rest =>
      have := h p (by rw [hl]; exact List.mem_cons_self _ _)
      simp at this
  | cons k ks ih =>
    have hstep : (k :: ks).foldl unload_model mm = ks.foldl unload_model (unload_model mm k) := rfl
    rw [hstep]
    apply ih
    intro p hp
    unfold unload_model at hp
    by_cases hk : (lookupEntry mm.loaded_models k).isSome
    · rw [if_pos hk] at hp
      obtain ⟨hp1, hp2⟩ := mem_of_mem_removeKey hp
      rcases List.mem_cons.mp (h p hp1) with hh | hh
      · exact absurd hh hp2
      · exact hh
    · rw [if_neg hk] at hp
      rcases List.mem_cons.mp (h p hp) with hh | hh
      · exfalso
        apply hk
        have := lookupEntry_isSome_of_mem hp
        rw [hh] at this
        exact this
      · exact hh

/-- Claim C1 (amended: the configured maximum must be positive; with
max_models = 0 the counterexample below applies): starting from an
empty cache, for every sequence of load_model calls and every prefix
of it, the number of resident entries after that prefix is at most the
configured max_models N, provided 1 <= N. -/
theorem capacity_invariant_of_pos_max (N : Nat) (hN : 1 ≤ N) (calls : List Call) (k : Nat) :
    (runCalls (initialManager N) (List.take k calls)).loaded_models.length ≤ N :=
  runCalls_length_le (List.take k calls) (initialManager N) hN (Nat.zero_le N)

/-- Witness for the amended Claim C1 at N = 3 and a two-call prefix. -/
theorem capacity_invariant_of_pos_max_witness :
    1 ≤ 3 ∧
      (runCalls (initialManager 3) (List.take 2 [cA, cB, cC])).loaded_models.length ≤ 3 :=
  ⟨by decide, capacity_invariant_of_pos_max 3 (by decide) [cA, cB, cC] 2⟩

/-- Counterexample to Claim C1 as stated: with the configured maximum
resident count 0 (PYTORCH_MAX_MODELS=0), a single successful load from
the empty cache leaves one resident entry, so the resident count
exceeds the configured maximum. -/
theorem capacity_exceeded_at_zero_max :
    ¬ ((runCalls (initialManager 0) [cA]).loaded_models.length ≤
        (initialManager 0).max_models) := by decide

/-- Claim C5 (amended): the autoregressive sampling step passes the
tokenizer's end-of-sequence token id, not its pad token id, as the
generation stop-padding id; the two coincide only when the pad token
was aliased from eos. -/
theorem generate_pad_id_is_eos (model : PTModel) (tokenizer : Tokenizer)
    (messages : List Message) (max_tokens : Nat) (temperature top_p : Rat) :
    (generate_text model tokenizer messages max_tokens temperature top_p).1.pad_token_id =
      tokenizer.eos_token_id := rfl

/-- Counterexample to Claim C5 as stated: for a tokenizer whose pad
token id (1) differs from its eos token id (2), the stop-padding id
passed to model.generate is 2, not the pad token id. -/
theorem generate_uses_eos_not_pad :
    tkDistinct.pad_token_id = some 1 ∧
      (generate_text mEcho tkDistinct [] 5 1 1).1.pad_token_id = 2 ∧
      ¬ some (generate_text mEcho tkDistinct [] 5 1 1).1.pad_token_id = tkDistinct.pad_token_id := by
  refine ⟨rfl, rfl, ?_⟩
  decide

/-- Claim C7: every generation response satisfies
input_tokens + output_tokens = total_tokens. -/
theorem token_accounting (model : PTModel) (tokenizer : Tokenizer) (messages : List Message)
    (max_tokens : Nat) (temperature top_p : Rat) :
    (generate_text model tokenizer messages max_tokens temperature top_p).2.total_tokens =
      (generate_text model tokenizer messages max_tokens temperature top_p).2.input_tokens +
        (generate_text model tokenizer messages max_tokens temperature top_p).2.output_tokens :=
  rfl

/-- Claim C8: after cleanup, the resident set is empty and
get_model_info reports an empty sequence, regardless of prior
population. -/
theorem cleanup_empties_cache (mm : ModelManager) :
    (cleanup mm).loaded_models = [] ∧ get_model_info (cleanup mm) = some [] := by
  have h1 : (cleanup mm).loaded_models = [] := by
    apply foldl_unload_empty
    intro p hp
    exact List.mem_map_of_mem Prod.fst hp
  refine ⟨h1, ?_⟩
  unfold get_model_info
  rw [h1]
  rfl

/-- Claim C2 (amended: the cache must be nonempty at capacity, i.e.
the configured maximum must be positive; with max_models = 0 the
counterexample below applies): a miss while the dict holds at least
max_models entries evicts exactly one entry, a resident entry whose
last-access timestamp is minimal, before inserting the new one; and
with N = 2 and loads A, B, C of distinct keys, C's insertion evicts A,
leaving exactly B and C resident. -/
theorem evicts_single_oldest_victim (p : Nat × Option Nat) (mem : Nat) (mm : ModelManager)
    (model_id model_type : String)
    (hN : 1 ≤ mm.max_models)
    (hcap : mm.max_models ≤ mm.loaded_models.length)
    (hnd : (mm.loaded_models.map Prod.fst).Nodup)
    (hmiss : lookupEntry mm.loaded_models (cache_key model_id model_type) = none)
    (hty : model_type = "embedding" ∨ model_type = "text-generation") :
    (∃ v ∈ mm.loaded_models,
      (∀ q ∈ mm.loaded_models, v.2.last_used ≤ q.2.last_used) ∧
      (load_model (some p) mem mm model_id model_type).1.loaded_models =
        removeKey mm.loaded_models v.1 ++
          [(cache_key model_id model_type, ⟨p.1, p.2, model_type, mm.clock, mm.clock, mem⟩)] ∧
      (load_model (some p) mem mm model_id model_type).1.loaded_models.length =
        mm.loaded_models.length) ∧
    residentKeys (runCalls (initialManager 2) [cA, cB, cC]) =
      [cache_key "modelB" "embedding", cache_key "modelC" "embedding"] := by
  constructor
  · have hne : mm.loaded_models ≠ [] := by
      intro hnil
      rw [hnil] at hcap
      simp at hcap
      omega
    obtain ⟨v, hv⟩ : ∃ v, minEntryByLastUsed mm.loaded_models = some v := by
      cases hm : minEntryByLastUsed mm.loaded_models with
      | none => exact absurd (minEntryByLastUsed_eq_none.mp hm) hne
      | some v => exact ⟨v, rfl⟩
    have hsome : (lookupEntry mm.loaded_models v.1).isSome :=
      lookupEntry_isSome_of_mem (minEntryByLastUsed_mem hv)
    refine ⟨v, minEntryByLastUsed_mem hv, minEntryByLastUsed_min hv, ?_, ?_⟩
    · rw [load_model_miss_insert p mem mm model_id model_type hmiss hty]
      dsimp only
      rw [if_pos hcap, evict_oldest_model_loaded hv, evict_oldest_model_clock]
    · rw [load_model_miss_insert p mem mm model_id model_type hmiss hty]
      dsimp only
      rw [if_pos hcap, evict_oldest_model_loaded hv, List.length_append]
      have := length_removeKey_of_nodup hnd hsome
      simp only [List.length_cons, List.length_nil]
      omega
  · decide

/-- Witness for the amended Claim C2: a capacity-2 manager holding
modelA and modelB takes a miss for modelC. -/
theorem evicts_single_oldest_victim_witness :
    1 ≤ mmFull2.max_models ∧
    mmFull2.max_models ≤ mmFull2.loaded_models.length ∧
    (mmFull2.loaded_models.map Prod.fst).Nodup ∧
    lookupEntry mmFull2.loaded_models (cache_key "modelC" "embedding") = none ∧
    ((∃ v ∈ mmFull2.loaded_models,
      (∀ q ∈ mmFull2.loaded_models, v.2.last_used ≤ q.2.last_used) ∧
      (load_model (some (12, none)) 0 mmFull2 "modelC" "embedding").1.loaded_models =
        removeKey mmFull2.loaded_models v.1 ++
          [(cache_key "modelC" "embedding", ⟨12, none, "embedding", mmFull2.clock, mmFull2.clock, 0⟩)] ∧
      (load_model (some (12, none)) 0 mmFull2 "modelC" "embedding").1.loaded_models.length =
        mmFull2.loaded_models.length) ∧
    residentKeys (runCalls (initialManager 2) [cA, cB, cC]) =
      [cache_key "modelB" "embedding", cache_key "modelC" "embedding"]) :=
  ⟨by decide, by decide, by decide, by decide,
    evicts_single_oldest_victim (12, none) 0 mmFull2 "modelC" "embedding"
      (by decide) (by decide) (by decide) (by decide) (Or.inl rfl)⟩

/-- Counterexample to Claim C2 as stated: with the configured maximum
0, a load miss happens while the cache is at capacity (0 >= 0 entries),
yet no entry is evicted: the resident count grows from 0 to 1 instead
of staying equal as single-victim eviction plus insertion would give. -/
theorem no_eviction_at_zero_capacity :
    (initialManager 0).max_models ≤ (initialManager 0).loaded_models.length ∧
    lookupEntry (initialManager 0).loaded_models (cache_key "modelA" "embedding") = none ∧
    (load_model (some (10, none)) 0 (initialManager 0) "modelA" "embedding").1.loaded_models.length =
      (initialManager 0).loaded_models.length + 1 := by decide

/-- Claim C3: a hit returns the stored handle without consulting the
loader, bumps exactly the hit entry's last-access timestamp to now,
removes and inserts nothing; and in the N = 2 scenario load A, load B,
hit A, load C, the evicted entry is B, not A. -/
theorem hit_updates_recency (o : Option (Nat × Option Nat)) (mem : Nat) (mm : ModelManager)
    (model_id model_type : String) (e : Entry)
    (hhit : lookupEntry mm.loaded_models (cache_key model_id model_type) = some e) :
    (load_model o mem mm model_id model_type).2 = Except.ok (e.model, e.tokenizer) ∧
    lookupEntry (load_model o mem mm model_id model_type).1.loaded_models
        (cache_key model_id model_type) = some { e with last_used := mm.clock } ∧
    residentKeys (load_model o mem mm model_id model_type).1 = residentKeys mm ∧
    (∀ q ∈ mm.loaded_models, q.1 ≠ cache_key model_id model_type →
      q ∈ (load_model o mem mm model_id model_type).1.loaded_models) ∧
    (∀ (o2 : Option (Nat × Option Nat)) (mem2 : Nat),
      load_model o2 mem2 mm model_id model_type = load_model o mem mm model_id model_type) ∧
    residentKeys (runCalls (initialManager 2) [cA, cB, cHitA, cC]) =
      [cache_key "modelA" "embedding", cache_key "modelC" "embedding"] := by
  rw [load_model_hit o mem mm model_id model_type e hhit]
  refine ⟨rfl, ?_, ?_, ?_, ?_, by decide⟩
  · dsimp only
    rw [lookupEntry_updateLastUsed_self, hhit]
    rfl
  · dsimp only [residentKeys]
    exact map_fst_updateLastUsed _ _ _
  · intro q hq hne
    dsimp only
    exact mem_updateLastUsed_of_ne hq hne
  · intro o2 mem2
    rw [load_model_hit o2 mem2 mm model_id model_type e hhit]

/-- Witness for Claim C3: modelA is hit in a manager where it is
resident. -/
theorem hit_updates_recency_witness :
    lookupEntry mmOne2.loaded_models (cache_key "modelA" "embedding") =
      some ⟨10, none, "embedding", 0, 0, 0⟩ ∧
    (load_model none 0 mmOne2 "modelA" "embedding").2 = Except.ok (10, none) := by
  refine ⟨by decide, ?_⟩
  have h := hit_updates_recency none 0 mmOne2 "modelA" "embedding"
    ⟨10, none, "embedding", 0, 0, 0⟩ (by decide)
  exact h.1

/-- Claim C4 (amended: the no-mutation guarantee only holds below
capacity; at capacity the oldest entry is evicted before the
capability check fails, as the counterexample below shows): a call
with an unsupported model type fails with the unsupported-type error,
never inserts an entry, and leaves the manager completely unchanged
whenever the cache is below capacity. -/
theorem invalid_type_error_behavior (o : Option (Nat × Option Nat)) (mem : Nat)
    (mm : ModelManager) (model_id model_type : String)
    (hty : ¬ (model_type = "embedding" ∨ model_type = "text-generation"))
    (hmiss : lookupEntry mm.loaded_models (cache_key model_id model_type) = none) :
    (load_model o mem mm model_id model_type).2 = Except.error LoadError.unsupportedType ∧
    lookupEntry (load_model o mem mm model_id model_type).1.loaded_models
      (cache_key model_id model_type) = none ∧
    (mm.loaded_models.length < mm.max_models →
      (load_model o mem mm model_id model_type).1 = mm) := by
  rw [load_model_miss_badtype o mem mm model_id model_type hmiss hty]
  refine ⟨rfl, ?_, ?_⟩
  · dsimp only
    split
    · exact lookupEntry_evict_oldest_model_of_none hmiss
    · exact hmiss
  · intro hlt
    dsimp only
    rw [if_neg (by omega)]

/-- Witness for the amended Claim C4: a bogus model type on a
below-capacity manager fails without touching the state. -/
theorem invalid_type_error_behavior_witness :
    ¬ ("bogus" = "embedding" ∨ "bogus" = "text-generation") ∧
    lookupEntry mmOne2.loaded_models (cache_key "any-model" "bogus") = none ∧
    ((load_model (some (5, none)) 0 mmOne2 "any-model" "bogus").2 =
        Except.error LoadError.unsupportedType ∧
      lookupEntry (load_model (some (5, none)) 0 mmOne2 "any-model" "bogus").1.loaded_models
        (cache_key "any-model" "bogus") = none ∧
      (mmOne2.loaded_models.length < mmOne2.max_models →
        (load_model (some (5, none)) 0 mmOne2 "any-model" "bogus").1 = mmOne2)) :=
  ⟨by decide, by decide,
    invalid_type_error_behavior (some (5, none)) 0 mmOne2 "any-model" "bogus"
      (by decide) (by decide)⟩

/-- Counterexample to Claim C4 as stated: at capacity (max_models = 1
with modelA resident), a call with an unsupported model type evicts
modelA before failing, so the cache is mutated. -/
theorem invalid_type_can_evict :
    (load_model (some (5, none)) 0 mmOne1 "any-model" "bogus").2 =
      Except.error LoadError.unsupportedType ∧
    mmOne1.loaded_models ≠ [] ∧
    (load_model (some (5, none)) 0 mmOne1 "any-model" "bogus").1.loaded_models = [] := by decide

/-- Claim C9 (amended: the at-capacity cache must be nonempty, i.e.
the configured maximum positive; with max_models = 0 the
counterexample below applies): on a miss with the cache at capacity,
the recency victim is evicted even when the subsequent load fails, so
the failed call ends with max_models - 1 resident entries, the victim
gone and the requested key absent. -/
theorem eviction_precedes_failed_load (mem : Nat) (mm : ModelManager)
    (model_id model_type : String)
    (hN : 1 ≤ mm.max_models)
    (hlen : mm.loaded_models.length = mm.max_models)
    (hnd : (mm.loaded_models.map Prod.fst).Nodup)
    (hmiss : lookupEntry mm.loaded_models (cache_key model_id model_type) = none)
    (hty : model_type = "embedding" ∨ model_type = "text-generation") :
    (load_model none mem mm model_id model_type).2 = Except.error LoadError.loadError ∧
    (load_model none mem mm model_id model_type).1.loaded_models.length + 1 = mm.max_models ∧
    (∀ v, minEntryByLastUsed mm.loaded_models = some v →
      lookupEntry (load_model none mem mm model_id model_type).1.loaded_models v.1 = none) ∧
    lookupEntry (load_model none mem mm model_id model_type).1.loaded_models
      (cache_key model_id model_type) = none := by
  have hcap : mm.max_models ≤ mm.loaded_models.length := by omega
  have hne : mm.loaded_models ≠ [] := by
    intro hnil
    rw [hnil] at hlen
    simp at hlen
    omega
  obtain ⟨v0, hv0⟩ : ∃ v, minEntryByLastUsed mm.loaded_models = some v := by
    cases hm : minEntryByLastUsed mm.loaded_models with
    | none => exact absurd (minEntryByLastUsed_eq_none.mp hm) hne
    | some v => exact ⟨v, rfl⟩
  rw [load_model_miss_fail mem mm model_id model_type hmiss hty]
  dsimp only
  rw [if_pos hcap, evict_oldest_model_loaded hv0]
  refine ⟨rfl, ?_, ?_, ?_⟩
  · have := length_removeKey_of_nodup hnd
      (lookupEntry_isSome_of_mem (minEntryByLastUsed_mem hv0))
    omega
  · intro v hv
    rw [hv0] at hv
    obtain rfl := Option.some.inj hv
    exact lookupEntry_removeKey_self _ _
  · exact lookupEntry_removeKey_of_none hmiss

/-- Witness for the amended Claim C9: a failing load of modelC against
the full capacity-2 manager evicts modelA and ends with one resident
entry. -/
theorem eviction_precedes_failed_load_witness :
    1 ≤ mmFull2.max_models ∧
    mmFull2.loaded_models.length = mmFull2.max_models ∧
    (mmFull2.loaded_models.map Prod.fst).Nodup ∧
    lookupEntry mmFull2.loaded_models (cache_key "modelC" "embedding") = none ∧
    ((load_model none 0 mmFull2 "modelC" "embedding").2 = Except.error LoadError.loadError ∧
      (load_model none 0 mmFull2 "modelC" "embedding").1.loaded_models.length + 1 =
        mmFull2.max_models ∧
      (∀ v, minEntryByLastUsed mmFull2.loaded_models = some v →
        lookupEntry (load_model none 0 mmFull2 "modelC" "embedding").1.loaded_models v.1 =
          none) ∧
      lookupEntry (load_model none 0 mmFull2 "modelC" "embedding").1.loaded_models
        (cache_key "modelC" "embedding") = none) :=
  ⟨by decide, by decide, by decide, by decide,
    eviction_precedes_failed_load 0 mmFull2 "modelC" "embedding"
      (by decide) (by decide) (by decide) (by decide) (Or.inl rfl)⟩

/-- Counterexample to Claim C9 as stated: with the configured maximum
0, a miss happens while the cache is at capacity (0 entries) and the
load fails, but afterwards the cache holds 0 entries, not N - 1 = -1;
no victim was evicted. -/
theorem failed_load_at_zero_max :
    lookupEntry (initialManager 0).loaded_models (cache_key "modelA" "embedding") = none ∧
    (initialManager 0).max_models ≤ (initialManager 0).loaded_models.length ∧
    (load_model none 0 (initialManager 0) "modelA" "embedding").2 =
      Except.error LoadError.loadError ∧
    ¬ (((load_model none 0 (initialManager 0) "modelA" "embedding").1.loaded_models.length : Int) =
        ((initialManager 0).max_models : Int) - 1) := by decide

theorem filterMap_format_message_line (ms : List Message)
    (h : ∀ m ∈ ms, m.role = "system" ∨ m.role = "user" ∨ m.role = "assistant") :
    ms.filterMap format_message_line = ms.map role_line := by
  induction ms with
  | nil => rfl
  | cons m rest ih =>
    have hm := h m (List.mem_cons_self _ _)
    have hr : ∀ x ∈ rest, x.role = "system" ∨ x.role = "user" ∨ x.role = "assistant" :=
      fun x hx => h x (List.mem_cons_of_mem _ hx)
    rcases hm with hm | hm | hm <;>
      simp [format_message_line, role_line, hm, ih hr]

/-- Claim C6: for messages whose roles are among system, user and
assistant, the rendered prompt is exactly the role-labelled line of
each message, in original order, followed by the trailing cue
Assistant:, all joined by newlines — so each input message appears
exactly once. -/
theorem format_messages_preserves_messages (messages : List Message)
    (h : ∀ m ∈ messages, m.role = "system" ∨ m.role = "user" ∨ m.role = "assistant") :
    format_messages messages =
      String.intercalate "\n" (messages.map role_line ++ ["Assistant:"]) := by
  unfold format_messages
  rw [filterMap_format_message_line messages h]

/-- Witness for Claim C6 on a three-message conversation. -/
theorem format_messages_preserves_messages_witness :
    (∀ m ∈ ([⟨"system", "be kind"⟩, ⟨"user", "hi"⟩, ⟨"assistant", "hello"⟩] : List Message),
      m.role = "system" ∨ m.role = "user" ∨ m.role = "assistant") ∧
    format_messages [⟨"system", "be kind"⟩, ⟨"user", "hi"⟩, ⟨"assistant", "hello"⟩] =
      String.intercalate "\n"
        (([⟨"system", "be kind"⟩, ⟨"user", "hi"⟩, ⟨"assistant", "hello"⟩] : List Message).map
            role_line ++ ["Assistant:"]) :=
  ⟨by decide,
    format_messages_preserves_messages
      [⟨"system", "be kind"⟩, ⟨"user", "hi"⟩, ⟨"assistant", "hello"⟩] (by decide)⟩

theorem splitFirstColonList_no_colon {a : List Char} (h : ':' ∉ a) (b : List Char) :
    splitFirstColonList (a ++ ':' :: b) = some (a, b) := by
  induction a with
  | nil => simp [splitFirstColonList]
  | cons c rest ih =>
    have hc : ¬ c = ':' := by
      intro hh
      exact h (by rw [hh]; exact List.mem_cons_self _ _)
    have h2 : ':' ∉ rest := fun hh => h (List.mem_cons_of_mem _ hh)
    simp [splitFirstColonList, hc, ih h2]

theorem exists_first_colon {l : List Char} (h : ':' ∈ l) :
    ∃ a b, l = a ++ ':' :: b ∧ ':' ∉ a := by
  induction l with
  | nil => simp at h
  | cons c rest ih =>
    by_cases hc : c = ':'
    · subst hc
      exact ⟨[], rest, rfl, by simp⟩
    · have h2 : ':' ∈ rest := by
        rcases List.mem_cons.mp h with hh | hh
        · exact absurd hh.symm hc
        · exact hh
      obtain ⟨a, b, h1, hna⟩ := ih h2
      refine ⟨c :: a, b, by rw [h1]; rfl, ?_⟩
      intro hm
      rcases List.mem_cons.mp hm with hh | hh
      · exact hc hh.symm
      · exact hna hh

theorem cache_key_toList (model_id model_type : String) :
    (cache_key model_id model_type).toList = model_id.toList ++ ':' :: model_type.toList := by
  show (model_id ++ ":" ++ model_type).data = model_id.data ++ ':' :: model_type.data
  rw [String.data_append, String.data_append]
  simp

theorem infoOfEntry_no_colon {model_id : String} (model_type : String) (e : Entry)
    (h : ':' ∉ model_id.toList) :
    infoOfEntry (cache_key model_id model_type, e) =
      some ⟨model_id, model_type, true, e.memory_usage, e.last_used⟩ := by
  unfold infoOfEntry
  dsimp only
  rw [cache_key_toList, splitFirstColonList_no_colon h]
  rfl

theorem infoOfEntry_with_colon {model_id : String} (model_type : String) (e : Entry)
    {a b : List Char} (hsplit : model_id.toList = a ++ ':' :: b) (hna : ':' ∉ a) :
    infoOfEntry (cache_key model_id model_type, e) =
      some ⟨String.mk a, String.mk (b ++ ':' :: model_type.toList), true,
        e.memory_usage, e.last_used⟩ := by
  unfold infoOfEntry
  dsimp only
  rw [cache_key_toList, hsplit]
  have hassoc : (a ++ ':' :: b) ++ ':' :: model_type.toList =
      a ++ ':' :: (b ++ ':' :: model_type.toList) := by simp
  rw [hassoc, splitFirstColonList_no_colon hna]

theorem info_mem_of_mem {l : List (String × Entry)} {infos : List ModelInfo}
    (h : get_model_info_list l = some infos) {p : String × Entry} (hp : p ∈ l) :
    ∃ i ∈ infos, infoOfEntry p = some i := by
  induction l generalizing infos with
  | nil => simp at hp
  | cons q rest ih =>
    unfold get_model_info_list at h
    cases hq : infoOfEntry q with
    | none =>
      rw [hq] at h
      simp at h
    | some i =>
      rw [hq] at h
      cases hr : get_model_info_list rest with
      | none =>
        rw [hr] at h
        simp at h
      | some is =>
        rw [hr] at h
        simp at h
        subst h
        rcases List.mem_cons.mp hp with hh | hh
        · subst hh
          exact ⟨i, List.mem_cons_self _ _, hq⟩
        · obtain ⟨j, hj1, hj2⟩ := ih hr hh
          exact ⟨j, List.mem_cons_of_mem _ hj1, hj2⟩

/-- Claim C10: get_model_info reconstructs identifier and type by
splitting the cache key at its first colon; for a resident entry whose
identifier has no colon, the reported model_id and model_type equal the
load-time arguments, and for an identifier containing a colon the
reported values differ from both. -/
theorem model_info_key_split (mm : ModelManager) (model_id model_type : String) (e : Entry)
    (infos : List ModelInfo)
    (hmem : (cache_key model_id model_type, e) ∈ mm.loaded_models)
    (hinfo : get_model_info mm = some infos) :
    (':' ∉ model_id.toList →
      (⟨model_id, model_type, true, e.memory_usage, e.last_used⟩ : ModelInfo) ∈ infos) ∧
    (':' ∈ model_id.toList →
      ∃ i ∈ infos, infoOfEntry (cache_key model_id model_type, e) = some i ∧
        i.model_id ≠ model_id ∧ i.model_type ≠ model_type) := by
  have hinfo2 : get_model_info_list mm.loaded_models = some infos := hinfo
  obtain ⟨i, hi, hieq⟩ := info_mem_of_mem hinfo2 hmem
  constructor
  · intro hno
    rw [infoOfEntry_no_colon model_type e hno] at hieq
    obtain rfl := Option.some.inj hieq
    exact hi
  · intro hyes
    obtain ⟨a, b, hab, hna⟩ := exists_first_colon hyes
    rw [infoOfEntry_with_colon model_type e hab hna] at hieq
    obtain heq := Option.some.inj hieq
    refine ⟨i, hi, ?_, ?_, ?_⟩
    · rw [infoOfEntry_with_colon model_type e hab hna, heq]
    · rw [← heq]
      intro hcontra
      have h1 := congrArg String.toList hcontra
      rw [hab] at h1
      have h2 := congrArg List.length h1
      simp at h2
    · rw [← heq]
      intro hcontra
      have h1 := congrArg String.toList hcontra
      have h2 := congrArg List.length h1
      simp at h2
      omega

/-- Witness for Claim C10 exercising both the colon-free identifier
(gpt2) and an identifier containing a colon (org:name). -/
theorem model_info_key_split_witness :
    (':' ∉ "gpt2".toList ∧
      (⟨"gpt2", "text-generation", true, 7, 9⟩ : ModelInfo) ∈
        ([⟨"gpt2", "text-generation", true, 7, 9⟩] : List ModelInfo)) ∧
    (':' ∈ "org:name".toList ∧
      ∃ i ∈ ([⟨"org", "name:embedding", true, 5, 4⟩] : List ModelInfo),
        infoOfEntry (cache_key "org:name" "embedding", e10b) = some i ∧
          i.model_id ≠ "org:name" ∧ i.model_type ≠ "embedding") :=
  ⟨⟨by decide,
      (model_info_key_split mm10a "gpt2" "text-generation" e10
          [⟨"gpt2", "text-generation", true, 7, 9⟩] (by decide) (by decide)).1 (by decide)⟩,
    ⟨by decide,
      (model_info_key_split mm10b "org:name" "embedding" e10b
          [⟨"org", "name:embedding", true, 5, 4⟩] (by decide) (by decide)).2 (by decide)⟩⟩

end PytorchService
